import Mathlib

/-!
Shallow embedding of the git-log note plugin (source: `main.ts`, modelled from
the variant that supports the per-repository "all branches" flag, which is the
version the specification describes).  Strings are modelled as lists of
characters; JavaScript `null`/`undefined` distinctions are made explicit where
the source depends on them.
-/

namespace GitLogNote

/-- Strings are modelled as lists of characters. -/
abbrev Str := List Char

/-- Converts a Lean string literal to the character-list model. -/
def str (s : String) : Str := s.data

/-- Embedding of the anchored regular expression `^\d{4}-\d{2}-\d{2}$`:
the string must consist of exactly four digits, a hyphen, two digits, a
hyphen, and two digits.  JavaScript `\d` is exactly the ASCII digits,
matching `Char.isDigit`. -/
def matchesDailyPattern : Str → Bool
  | [y1, y2, y3, y4, h1, m1, m2, h2, d1, d2] =>
    y1.isDigit && y2.isDigit && y3.isDigit && y4.isDigit && h1 == '-' &&
    m1.isDigit && m2.isDigit && h2 == '-' && d1.isDigit && d2.isDigit
  | _ => false

/-- Possible values of the JavaScript expression `fileName?.match(re)`:
a match array (whose element 0 is the full match, here the whole string
because the pattern is anchored at both ends), the value `null` (the string
did not match), or `undefined` (optional chaining short-circuited because
`fileName` was `null`). -/
inductive JsMatchValue where
  | arr (fullMatch : Str)
  | jsNull
  | jsUndefined
deriving DecidableEq

/-- Evaluates `fileName?.match(/^\d{4}-\d{2}-\d{2}$/)` where `none`
models a `null` file name. -/
def optChainMatchDaily : Option Str → JsMatchValue
  | none => .jsUndefined
  | some s => if matchesDailyPattern s then .arr s else .jsNull

/-- Source `isDailyNote(fileName)`: the expression
`fileName?.match(/^\d{4}-\d{2}-\d{2}$/) !== null`.  The strict inequality
is `false` exactly when the match value is `null`; in particular
`undefined !== null` is `true`. -/
def isDailyNote (fileName : Option Str) : Bool :=
  match optChainMatchDaily fileName with
  | .jsNull => false
  | _ => true

/-- Source `extractDateFromFileName(fileName)`: the expression
`fileName?.match(/^\d{4}-\d{2}-\d{2}$/)?.[0] || null`.  Indexing `[0]` on
`null` or `undefined` (via `?.`) yields `undefined`, and `x || null`
replaces any falsy value (`undefined`, and the empty string) by `null`. -/
def extractDateFromFileName (fileName : Option Str) : Option Str :=
  match optChainMatchDaily fileName with
  | .arr m => if m = [] then none else some m
  | _ => none

/-- A ten-character string matching the daily pattern is nonempty. -/
theorem matchesDailyPattern_ne_nil {s : Str} (h : matchesDailyPattern s = true) :
    s ≠ [] := by
  intro hs
  subst hs
  simp [matchesDailyPattern] at h

/-- C1: for every (non-null) string `s`, `isDailyNote s` holds exactly when
`s` matches the anchored pattern `^\d{4}-\d{2}-\d{2}$`, and
`extractDateFromFileName s` returns `s` itself when the pattern matches and
is absent otherwise (covering empty strings, partial dates, and dates
embedded mid-string, none of which match the anchored pattern). -/
theorem c1_daily_note_extraction (s : Str) :
    isDailyNote (some s) = matchesDailyPattern s ∧
    extractDateFromFileName (some s) =
      (if matchesDailyPattern s then some s else none) := by
  constructor
  · unfold isDailyNote optChainMatchDaily
    cases h : matchesDailyPattern s <;> simp [h]
  · unfold extractDateFromFileName optChainMatchDaily
    cases h : matchesDailyPattern s <;> simp [h]
    exact matchesDailyPattern_ne_nil h

/-- Checks whether the first list is an initial segment of the second. -/
def isPrefixList : Str → Str → Bool
  | [], _ => true
  | _ :: _, [] => false
  | a :: as, b :: bs => a == b && isPrefixList as bs

/-- Checks whether the first list occurs as a contiguous segment of the
second (substring containment). -/
def occursIn (p : Str) : Str → Bool
  | [] => decide (p = [])
  | a :: rest => isPrefixList p (a :: rest) || occursIn p rest

/-- Characterisation of `isPrefixList` as existence of a suffix. -/
theorem isPrefixList_iff (p : Str) : ∀ l, isPrefixList p l = true ↔ ∃ t, l = p ++ t := by
  induction p with
  | nil => intro l; simp [isPrefixList]
  | cons a as ih =>
    intro l
    cases l with
    | nil => simp [isPrefixList]
    | cons b bs =>
      simp only [isPrefixList, Bool.and_eq_true, beq_iff_eq, ih, List.cons_append,
        List.cons.injEq]
      constructor
      · rintro ⟨rfl, t, rfl⟩
        exact ⟨t, rfl, rfl⟩
      · rintro ⟨t, rfl, rfl⟩
        exact ⟨rfl, t, rfl⟩

/-- Characterisation of `occursIn` as existence of a decomposition. -/
theorem occursIn_iff (p : Str) : ∀ l, occursIn p l = true ↔ ∃ u v, l = u ++ p ++ v := by
  intro l
  induction l with
  | nil =>
    simp only [occursIn, decide_eq_true_eq]
    constructor
    · rintro rfl
      exact ⟨[], [], rfl⟩
    · rintro ⟨u, v, h⟩
      rcases List.append_eq_nil.mp h.symm with ⟨h1, h2⟩
      rcases List.append_eq_nil.mp h1 with ⟨_, h3⟩
      exact h3
  | cons a rest ih =>
    simp only [occursIn, Bool.or_eq_true, isPrefixList_iff, ih]
    constructor
    · rintro (⟨t, ht⟩ | ⟨u, v, rfl⟩)
      · exact ⟨[], t, by simpa using ht⟩
      · exact ⟨a :: u, v, rfl⟩
    · rintro ⟨u, v, huv⟩
      cases u with
      | nil => exact Or.inl ⟨v, by simpa using huv⟩
      | cons x xs =>
        right
        rw [List.cons_append, List.cons_append] at huv
        injection huv with h1 h2
        exact ⟨xs, v, h2⟩

/-- A witnessed decomposition yields occurrence. -/
theorem occursIn_of_eq_append (p u v l : Str) (h : l = u ++ p ++ v) :
    occursIn p l = true :=
  (occursIn_iff p l).mpr ⟨u, v, h⟩

/-- Occurrence is preserved by prepending. -/
theorem occursIn_append_left (p x : Str) {m : Str} (h : occursIn p m = true) :
    occursIn p (x ++ m) = true := by
  obtain ⟨u, v, rfl⟩ := (occursIn_iff p m).mp h
  exact occursIn_of_eq_append _ (x ++ u) v _ (by simp [List.append_assoc])

/-- Occurrence is preserved by appending. -/
theorem occursIn_append_right (p : Str) {m : Str} (y : Str) (h : occursIn p m = true) :
    occursIn p (m ++ y) = true := by
  obtain ⟨u, v, rfl⟩ := (occursIn_iff p m).mp h
  exact occursIn_of_eq_append _ u (v ++ y) _ (by simp [List.append_assoc])

/-- Every list occurs in itself. -/
theorem occursIn_refl (p : Str) : occursIn p p = true :=
  occursIn_of_eq_append p [] [] p (by simp)

/-- Head of the shell command template: everything before the conditional
`--all` flag, with the repository path interpolated raw inside double
quotes: `git -C "<repoPath>" log `. -/
def cmdHead (repoPath : Str) : Str :=
  str "git -C \"" ++ repoPath ++ str "\" log "

/-- Tail of the shell command template: everything after the conditional
`--all` flag, with the date interpolated raw twice.  Note that the
`--format` argument contains the ref-decoration field `(%D)`
unconditionally. -/
def cmdTail (date : Str) : Str :=
  str " --oneline --no-merges --date=short --format=\"%h %s (%D)\" --after=\"" ++
    date ++ str " 00:00:00\" --before=\"" ++ date ++ str " 23:59:59\""

/-- Source `getGitLog`, command construction: the template literal
`git -C "${repoPath}" log ${allBranchesFlag} --oneline --no-merges
--date=short --format="%h %s (%D)" --after="${date} 00:00:00"
--before="${date} 23:59:59"` where `allBranchesFlag` is `--all` when
`allBranches` and the empty string otherwise. -/
def gitLogCommand (date repoPath : Str) (allBranches : Bool) : Str :=
  cmdHead repoPath ++ (if allBranches then str "--all" else str "") ++ cmdTail date

/-- Outcome of the external `execSync` call: captured standard output on
success, or a thrown error (non-zero exit, missing binary, invalid path). -/
inductive ExecResult where
  | success (stdout : Str)
  | failure
deriving DecidableEq

/-- The character set removed by JavaScript `String.prototype.trim` at both
ends (ASCII whitespace plus the common Unicode space characters that can
appear in command output). -/
def isJsWhitespace (c : Char) : Bool :=
  c == ' ' || c == '\t' || c == '\n' || c == '\r' ||
  c == '\u000b' || c == '\u000c' || c == '\u00a0' || c == '\ufeff'

/-- JavaScript `String.prototype.trim`: drops whitespace at both ends. -/
def jsTrim (s : Str) : Str :=
  ((s.dropWhile isJsWhitespace).reverse.dropWhile isJsWhitespace).reverse

/-- Source `getGitLog`: runs the assembled command through the external
process capability `exec`; a thrown error is caught and replaced by the
literal error string, a successful but empty (falsy after `trim`) output
is replaced by the literal no-commits string, and any other output is
returned trimmed. -/
def getGitLog (exec : Str → ExecResult) (date repoPath : Str)
    (allBranches : Bool) : Str :=
  match exec (gitLogCommand date repoPath allBranches) with
  | .failure => str "Error: Unable to retrieve git log."
  | .success stdout =>
      let output := jsTrim stdout
      if output = [] then str "No commits found for the specified date." else output

/-- C2 counterexample: with `allBranches = false` the assembled command
still contains the ref-decoration field `(%D)` of the `--format` argument,
contradicting the claim that the command then contains neither `(%D)` nor
`--all`. -/
theorem c2_counterexample :
    occursIn (str "(%D)") (gitLogCommand (str "2024-03-15") (str "/repo") false) = true := by
  decide

/-- C2 (amended): for every date and repository path, the command built by
`getGitLog` always contains the ref-decoration field `(%D)` in its
`--format` argument (regardless of `allBranches`); the `--all` scope flag
is spliced in at its fixed position exactly when `allBranches` is
requested (so the `true` command is five characters longer); and in both
cases the command restricts to the inclusive window
`--after "<date> 00:00:00"` / `--before "<date> 23:59:59"` with
`--no-merges`. -/
theorem c2_command_window_and_flags (date repoPath : Str) (allBranches : Bool) :
    occursIn (str "(%D)") (gitLogCommand date repoPath allBranches) = true ∧
    occursIn (str "--no-merges") (gitLogCommand date repoPath allBranches) = true ∧
    occursIn (str "--after=\"" ++ date ++ str " 00:00:00\"")
      (gitLogCommand date repoPath allBranches) = true ∧
    occursIn (str "--before=\"" ++ date ++ str " 23:59:59\"")
      (gitLogCommand date repoPath allBranches) = true ∧
    gitLogCommand date repoPath true = cmdHead repoPath ++ str "--all" ++ cmdTail date ∧
    gitLogCommand date repoPath false = cmdHead repoPath ++ cmdTail date ∧
    (gitLogCommand date repoPath true).length =
      (gitLogCommand date repoPath false).length + 5 := by
  refine ⟨?_, ?_, ?_, ?_, rfl, ?_, ?_⟩
  · have h0 : occursIn (str "(%D)")
        (str " --oneline --no-merges --date=short --format=\"%h %s (%D)\" --after=\"") = true := by
      decide
    simp only [gitLogCommand, cmdTail]
    exact occursIn_append_left _ _
      (occursIn_append_right _ _ (occursIn_append_right _ _
        (occursIn_append_right _ _ (occursIn_append_right _ _ h0))))
  · have h0 : occursIn (str "--no-merges")
        (str " --oneline --no-merges --date=short --format=\"%h %s (%D)\" --after=\"") = true := by
      decide
    simp only [gitLogCommand, cmdTail]
    exact occursIn_append_left _ _
      (occursIn_append_right _ _ (occursIn_append_right _ _
        (occursIn_append_right _ _ (occursIn_append_right _ _ h0))))
  · have ht1 : str " --oneline --no-merges --date=short --format=\"%h %s (%D)\" --after=\"" =
        str " --oneline --no-merges --date=short --format=\"%h %s (%D)\" " ++
          str "--after=\"" := by decide
    have ht2 : str " 00:00:00\" --before=\"" = str " 00:00:00\"" ++ str " --before=\"" := by
      decide
    refine occursIn_of_eq_append _
      (cmdHead repoPath ++ (if allBranches then str "--all" else str "") ++
        str " --oneline --no-merges --date=short --format=\"%h %s (%D)\" ")
      (str " --before=\"" ++ date ++ str " 23:59:59\"") _ ?_
    simp only [gitLogCommand, cmdTail]
    rw [ht1, ht2]
    simp [List.append_assoc]
  · have ht2 : str " 00:00:00\" --before=\"" = str " 00:00:00\" " ++ str "--before=\"" := by
      decide
    refine occursIn_of_eq_append _
      (cmdHead repoPath ++ (if allBranches then str "--all" else str "") ++
        (str " --oneline --no-merges --date=short --format=\"%h %s (%D)\" --after=\"" ++
          date ++ str " 00:00:00\" ")) [] _ ?_
    simp only [gitLogCommand, cmdTail]
    rw [ht2]
    simp [List.append_assoc]
  · have h0 : str "" = ([] : Str) := rfl
    simp [gitLogCommand, h0]
  · have h5 : (str "--all").length = 5 := by decide
    have h0 : (str "").length = 0 := by decide
    simp [gitLogCommand, List.length_append, h5, h0]
    omega

/-- C9: the repository path is substituted verbatim (no validation or
escaping) into the fixed command template, so the path always occurs raw
in the assembled command; the command contains exactly the template's
eight double-quote characters plus every double quote of the path and of
the two date interpolations, and for the concrete path `/home/u/a"b`
(containing a double quote) the assembled command has an odd number of
double quotes, so its quoting structure differs from the template's
intended balanced quoting. -/
theorem c9_raw_path_interpolation (date repoPath : Str) (allBranches : Bool) :
    occursIn repoPath (gitLogCommand date repoPath allBranches) = true ∧
    (gitLogCommand date repoPath allBranches).count '\"' =
      8 + repoPath.count '\"' + 2 * date.count '\"' ∧
    (gitLogCommand (str "2024-03-15") (str "/home/u/a\"b") false).count '\"' % 2 = 1 := by
  refine ⟨?_, ?_, by decide⟩
  · refine occursIn_of_eq_append _ (str "git -C \"")
      (str "\" log " ++ (if allBranches then str "--all" else str "") ++ cmdTail date) _ ?_
    simp only [gitLogCommand, cmdHead]
    simp [List.append_assoc]
  · have hq1 : (str "git -C \"").count '\"' = 1 := by decide
    have hq2 : (str "\" log ").count '\"' = 1 := by decide
    have hq3 : (str " --oneline --no-merges --date=short --format=\"%h %s (%D)\" --after=\"").count '\"' = 3 := by
      decide
    have hq4 : (str " 00:00:00\" --before=\"").count '\"' = 2 := by decide
    have hq5 : (str " 23:59:59\"").count '\"' = 1 := by decide
    have hq6 : (str "--all").count '\"' = 0 := by decide
    have hq7 : (str "").count '\"' = 0 := by decide
    cases allBranches <;>
      simp [gitLogCommand, cmdHead, cmdTail, List.count_append,
        hq1, hq2, hq3, hq4, hq5, hq6, hq7] <;>
      omega

/-- A configured repository: user-chosen unique name, filesystem path, and
the "all branches" flag (the optional JavaScript field is modelled as a
plain boolean, since `undefined` and `false` are observationally equal in
every use of the field). -/
structure Repo where
  name : Str
  path : Str
  allBranches : Bool
deriving DecidableEq

/-- One iteration of the insertion loop of `insertGitLog`: the collapsible
admonition block appended for a single selected repository. -/
def formatRepoBlock (exec : Str → ExecResult) (date : Str) (repo : Repo) : Str :=
  str ">[!NOTE]- `git log` for " ++ repo.name ++
    (if repo.allBranches then str " (all branches)" else str "") ++ str "\n" ++
    str "> ```\n" ++
    (str "> " ++ getGitLog exec date repo.path repo.allBranches ++ str "\n") ++
    str "> ```\n" ++ str "\n"

/-- The insertion loop of `insertGitLog`: starting from the empty string,
appends one block per selected repository, in selection order. -/
def formatAll (exec : Str → ExecResult) (date : Str) (selectedRepos : List Repo) : Str :=
  selectedRepos.foldl (fun acc repo => acc ++ formatRepoBlock exec date repo) []

/-- Unfolds the accumulator of the insertion loop. -/
theorem formatAll_acc (exec : Str → ExecResult) (date : Str) :
    ∀ (l : List Repo) (acc : Str),
      l.foldl (fun a r => a ++ formatRepoBlock exec date r) acc =
        acc ++ formatAll exec date l := by
  intro l
  induction l with
  | nil => intro acc; simp [formatAll]
  | cons r rest ih =>
    intro acc
    simp only [List.foldl_cons, formatAll, List.nil_append]
    rw [ih, ih (formatRepoBlock exec date r)]
    simp [List.append_assoc]

/-- The loop on a first repository and the remaining ones. -/
theorem formatAll_cons (exec : Str → ExecResult) (date : Str) (r : Repo)
    (rest : List Repo) :
    formatAll exec date (r :: rest) =
      formatRepoBlock exec date r ++ formatAll exec date rest := by
  simp only [formatAll, List.foldl_cons]
  rw [formatAll_acc]
  simp [formatAll]

/-- C4: `getGitLog` is a total function of the external query outcome (no
exception ever reaches the caller): a thrown external failure is replaced
by the literal string `"Error: Unable to retrieve git log."`, a successful
query whose output trims to nothing yields the literal string
`"No commits found for the specified date."`, and every selected
repository's block occurs in the final text regardless of the outcomes of
the other repositories' queries. -/
theorem c4_error_swallowing (exec : Str → ExecResult) (date repoPath : Str)
    (allBranches : Bool) :
    (exec (gitLogCommand date repoPath allBranches) = .failure →
      getGitLog exec date repoPath allBranches =
        str "Error: Unable to retrieve git log.") ∧
    (∀ stdout, exec (gitLogCommand date repoPath allBranches) = .success stdout →
      jsTrim stdout = [] →
      getGitLog exec date repoPath allBranches =
        str "No commits found for the specified date.") ∧
    (∀ (repos : List Repo) (repo : Repo), repo ∈ repos →
      occursIn (formatRepoBlock exec date repo) (formatAll exec date repos) = true) := by
  refine ⟨?_, ?_, ?_⟩
  · intro h
    simp [getGitLog, h]
  · intro stdout hs ht
    simp [getGitLog, hs, ht]
  · intro repos
    induction repos with
    | nil =>
      intro repo hmem
      cases hmem
    | cons r rest ih =>
      intro repo hmem
      rw [formatAll_cons]
      rcases List.mem_cons.mp hmem with rfl | hmem2
      · exact occursIn_append_right _ _ (occursIn_refl _)
      · exact occursIn_append_left _ _ (ih repo hmem2)

/-- C4 witness: the three parts of `c4_error_swallowing` instantiated at
concrete inputs (a failing external call, a successful call returning only
whitespace, and a one-repository selection whose query fails). -/
theorem c4_error_swallowing_witness :
    getGitLog (fun _ => ExecResult.failure) (str "2024-03-15") (str "/repo") false =
      str "Error: Unable to retrieve git log." ∧
    getGitLog (fun _ => ExecResult.success (str "  ")) (str "2024-03-15") (str "/repo") false =
      str "No commits found for the specified date." ∧
    occursIn
      (formatRepoBlock (fun _ => ExecResult.failure) (str "2024-03-15")
        ⟨str "proj", str "/repo", false⟩)
      (formatAll (fun _ => ExecResult.failure) (str "2024-03-15")
        [⟨str "proj", str "/repo", false⟩]) = true :=
  ⟨(c4_error_swallowing (fun _ => ExecResult.failure)
      (str "2024-03-15") (str "/repo") false).1 rfl,
   (c4_error_swallowing (fun _ => ExecResult.success (str "  "))
      (str "2024-03-15") (str "/repo") false).2.1 (str "  ") rfl (by decide),
   (c4_error_swallowing (fun _ => ExecResult.failure)
      (str "2024-03-15") (str "/repo") false).2.2
      [⟨str "proj", str "/repo", false⟩] ⟨str "proj", str "/repo", false⟩ (by simp)⟩

/-- C5: for a single selected repository whose query returns
`abc123 fix bug`, the inserted text is exactly the byte string
`>[!NOTE]- ·git log· for <name>\n> ·``·\n> abc123 fix bug\n> ·``·\n\n`
(one trailing blank line after the block), and with `allBranches = true`
the only change is the literal suffix `" (all branches)"` appended after
the repository name in the header line. -/
theorem c5_block_byte_format (exec : Str → ExecResult) (date name path : Str) :
    (exec (gitLogCommand date path false) = .success (str "abc123 fix bug") →
      formatAll exec date [⟨name, path, false⟩] =
        str ">[!NOTE]- `git log` for " ++ name ++
          str "\n> ```\n> abc123 fix bug\n> ```\n\n") ∧
    (exec (gitLogCommand date path true) = .success (str "abc123 fix bug") →
      formatAll exec date [⟨name, path, true⟩] =
        str ">[!NOTE]- `git log` for " ++ name ++ str " (all branches)" ++
          str "\n> ```\n> abc123 fix bug\n> ```\n\n") := by
  have htrim : jsTrim (str "abc123 fix bug") = str "abc123 fix bug" := by decide
  have hne : (str "abc123 fix bug" = ([] : Str)) = False := by decide
  have hnil : str "" = ([] : Str) := rfl
  have hsplit : str "\n> ```\n> abc123 fix bug\n> ```\n\n" =
      str "\n" ++ str "> ```\n" ++ (str "> " ++ str "abc123 fix bug" ++ str "\n") ++
        str "> ```\n" ++ str "\n" := by decide
  constructor
  · intro h
    rw [formatAll_cons]
    simp [formatAll, formatRepoBlock, getGitLog, h, htrim, hne, hnil, hsplit,
      List.append_assoc]
  · intro h
    rw [formatAll_cons]
    simp [formatAll, formatRepoBlock, getGitLog, h, htrim, hne, hnil, hsplit,
      List.append_assoc]

/-- C5 witness: `c5_block_byte_format` instantiated at a concrete
repository and a concrete external query returning `abc123 fix bug`. -/
theorem c5_block_byte_format_witness :
    formatAll (fun _ => ExecResult.success (str "abc123 fix bug")) (str "2024-03-15")
        [⟨str "proj", str "/repo", false⟩] =
      str ">[!NOTE]- `git log` for " ++ str "proj" ++
        str "\n> ```\n> abc123 fix bug\n> ```\n\n" ∧
    formatAll (fun _ => ExecResult.success (str "abc123 fix bug")) (str "2024-03-15")
        [⟨str "proj", str "/repo", true⟩] =
      str ">[!NOTE]- `git log` for " ++ str "proj" ++ str " (all branches)" ++
        str "\n> ```\n> abc123 fix bug\n> ```\n\n" :=
  ⟨(c5_block_byte_format (fun _ => ExecResult.success (str "abc123 fix bug"))
      (str "2024-03-15") (str "proj") (str "/repo")).1 rfl,
   (c5_block_byte_format (fun _ => ExecResult.success (str "abc123 fix bug"))
      (str "2024-03-15") (str "proj") (str "/repo")).2 rfl⟩

/-- In-memory plugin settings: the configured repositories (display order)
and the names selected last time. -/
structure Settings where
  repos : List Repo
  lastSelectedRepos : List Str
deriving DecidableEq

/-- A user interaction with an open repository-selection dialog: toggling a
repository's primary checkbox, or toggling its "all branches" checkbox. -/
inductive ModalEvent where
  | toggleSelect (name : Str) (checked : Bool)
  | toggleAllBranches (name : Str) (checked : Bool)
deriving DecidableEq

/-- Distinguishes the "all branches" checkbox events. -/
def isAllBranchesToggle : ModalEvent → Bool
  | .toggleAllBranches _ _ => true
  | _ => false

/-- State of the open `RepoSelectionModal`: the repository objects (aliased
with the settings' repository list, so an "all branches" mutation is
immediately visible there) and the internal `selectedRepos` list.  The
source stores object references in `selectedRepos`; under the spec's
unique-name invariant these references are represented by names and
dereferenced against the current repository list. -/
structure ModalState where
  repos : List Repo
  selected : List Str
deriving DecidableEq

/-- Constructor of `RepoSelectionModal`: `selectedRepos` starts as the
repositories whose name is in `lastSelectedRepos`, in display order (these
are also exactly the pre-checked checkboxes in `onOpen`). -/
def initModalState (repos : List Repo) (lastSelectedRepos : List Str) : ModalState :=
  ⟨repos, (repos.filter (fun r => lastSelectedRepos.contains r.name)).map
    (fun r => r.name)⟩

/-- The dialog's `change` listeners: checking the primary checkbox pushes
the repository at the end of `selectedRepos`; unchecking filters it out by
name; toggling the "all branches" checkbox assigns `repo.allBranches`
immediately. -/
def modalStep (s : ModalState) (e : ModalEvent) : ModalState :=
  match e with
  | .toggleSelect name true => ⟨s.repos, s.selected ++ [name]⟩
  | .toggleSelect name false => ⟨s.repos, s.selected.filter (fun n => !(n == name))⟩
  | .toggleAllBranches name checked =>
      ⟨s.repos.map (fun r => if r.name == name then ⟨r.name, r.path, checked⟩ else r),
        s.selected⟩

/-- State of the dialog after a sequence of user toggles. -/
def runModal (repos : List Repo) (lastSelectedRepos : List Str)
    (events : List ModalEvent) : ModalState :=
  events.foldl modalStep (initModalState repos lastSelectedRepos)

/-- The value passed to `onSubmit` when the submit button is clicked: the
current `selectedRepos`, dereferenced to the current repository objects. -/
def submitResult (s : ModalState) : List Repo :=
  s.selected.filterMap (fun n => s.repos.find? (fun r => r.name == n))

/-- How the repository-selection dialog ends: the submit button, or
closing the dialog without submitting. -/
inductive RepoModalAction where
  | submitModal
  | closeModal
deriving DecidableEq

/-- Observable outcome of `promptForRepos`: the in-memory settings after
the dialog, what (if anything) was persisted to disk, and the value the
returned promise resolved with (`none` when the promise never resolves
because the dialog was closed without submitting). -/
structure ReposPromptOutcome where
  settings : Settings
  savedToDisk : Option Settings
  result : Option (List Repo)
deriving DecidableEq

/-- Source `promptForRepos` together with the dialog lifecycle: on
submission the callback records the selected names in
`settings.lastSelectedRepos` and saves the settings; on close without
submission nothing is saved and the promise never resolves, but the
repository objects keep any "all branches" mutations made while the
dialog was open. -/
def promptForRepos (settings : Settings) (events : List ModalEvent)
    (action : RepoModalAction) : ReposPromptOutcome :=
  let final := runModal settings.repos settings.lastSelectedRepos events
  match action with
  | .closeModal => ⟨⟨final.repos, settings.lastSelectedRepos⟩, none, none⟩
  | .submitModal =>
      let result := submitResult final
      let newSettings : Settings := ⟨final.repos, result.map (fun r => r.name)⟩
      ⟨newSettings, some newSettings, some result⟩

/-- How the date prompt ends: the submit button (with the current content
of the date input, possibly empty), or closing the dialog without
submitting. -/
inductive DatePromptAction where
  | submitDate (value : Str)
  | closeModal
deriving DecidableEq

/-- Observable outcome of one invocation of the insert command: text
inserted at the cursor, a transient notice shown, or the workflow
suspended forever (an awaited modal promise that never resolves). -/
inductive InsertOutcome where
  | inserted (text : Str)
  | noticeShown (message : Str)
  | suspended
deriving DecidableEq

/-- Continuation of `insertGitLog` once the date variable is resolved
(`none` models JavaScript `null`): mirrors the `if (date)` test (empty
string and `null` are falsy), the repository prompt, the
`selectedRepos.length > 0` test, and the insertion loop. -/
def insertWithDate (exec : Str → ExecResult) (settings : Settings)
    (date : Option Str) (events : List ModalEvent) (repoAction : RepoModalAction) :
    InsertOutcome × Settings :=
  match date with
  | some d =>
      if d = [] then
        (.noticeShown (str "No date provided. Git log not inserted."), settings)
      else
        match repoAction with
        | .closeModal =>
            let out := promptForRepos settings events .closeModal
            (.suspended, out.settings)
        | .submitModal =>
            let out := promptForRepos settings events .submitModal
            match out.result with
            | some selected =>
                if selected = [] then
                  (.noticeShown (str "No repositories selected. Git log not inserted."),
                    out.settings)
                else (.inserted (formatAll exec d selected), out.settings)
            | none => (.suspended, out.settings)
  | none => (.noticeShown (str "No date provided. Git log not inserted."), settings)

/-- Source `insertGitLog`: the file name is `view.file?.basename ?? ""`;
a daily-note name is used as the date directly, otherwise the date prompt
runs (closing it without submitting leaves the awaited promise pending
forever, modelled as `suspended`). -/
def insertGitLog (exec : Str → ExecResult) (settings : Settings)
    (basename : Option Str) (dateAction : DatePromptAction)
    (events : List ModalEvent) (repoAction : RepoModalAction) :
    InsertOutcome × Settings :=
  let fileName := basename.getD (str "")
  if isDailyNote (some fileName) then
    insertWithDate exec settings (extractDateFromFileName (some fileName)) events repoAction
  else
    match dateAction with
    | .submitDate v => insertWithDate exec settings (some v) events repoAction
    | .closeModal => (.suspended, settings)

/-- Under unique names, looking a member repository up by name finds it. -/
theorem find_by_name : ∀ (repos : List Repo), (repos.map Repo.name).Nodup →
    ∀ {r : Repo}, r ∈ repos → repos.find? (fun x => x.name == r.name) = some r := by
  intro repos
  induction repos with
  | nil =>
    intro _ r hr
    cases hr
  | cons a rest ih =>
    intro h r hr
    simp only [List.map_cons, List.nodup_cons] at h
    rcases List.mem_cons.mp hr with rfl | hr2
    · exact List.find?_cons_of_pos _ (by simp)
    · have hne : a.name ≠ r.name := fun heq =>
        h.1 (heq ▸ List.mem_map_of_mem Repo.name hr2)
      rw [List.find?_cons_of_neg _ (by simpa using hne)]
      exact ih h.2 hr2

/-- A name-to-repository dereference that finds every element is the
identity on the list. -/
theorem filterMap_find_self {repos : List Repo} :
    ∀ {l : List Repo},
      (∀ r ∈ l, repos.find? (fun x => x.name == r.name) = some r) →
      l.filterMap (fun r => repos.find? (fun x => x.name == r.name)) = l := by
  intro l
  induction l with
  | nil => intro _; rfl
  | cons a rest ih =>
    intro h
    rw [List.filterMap_cons, h a (List.mem_cons_self a rest)]
    rw [ih (fun r hr => h r (List.mem_cons_of_mem a hr))]

/-- C3 counterexample: with no previously selected repositories and two
repositories `A`, `B` displayed in that order, checking `B` and then `A`
and submitting returns the repositories in click order `[B, A]`, not in
the display order `[A, B]` the claim asserts. -/
theorem c3_counterexample :
    submitResult (runModal
        [⟨str "A", str "/a", false⟩, ⟨str "B", str "/b", false⟩] []
        [ModalEvent.toggleSelect (str "B") true, ModalEvent.toggleSelect (str "A") true]) =
      [⟨str "B", str "/b", false⟩, ⟨str "A", str "/a", false⟩] ∧
    submitResult (runModal
        [⟨str "A", str "/a", false⟩, ⟨str "B", str "/b", false⟩] []
        [ModalEvent.toggleSelect (str "B") true, ModalEvent.toggleSelect (str "A") true]) ≠
      [⟨str "A", str "/a", false⟩, ⟨str "B", str "/b", false⟩] := by
  decide

/-- C3 (amended): when the dialog is opened (names unique) the pre-checked
set is exactly the repositories whose name is in `lastSelectedNames`, in
display order, and submitting without further toggles returns exactly
that display-ordered list; repositories checked by later toggles, however,
are appended in click order, so the general result is not always in
display order. -/
theorem c3_no_toggle_round_trip (repos : List Repo) (lastSel : List Str)
    (h : (repos.map Repo.name).Nodup) :
    (runModal repos lastSel []).selected =
      (repos.filter (fun r => lastSel.contains r.name)).map (fun r => r.name) ∧
    submitResult (runModal repos lastSel []) =
      repos.filter (fun r => lastSel.contains r.name) := by
  constructor
  · rfl
  · simp only [runModal, List.foldl_nil, initModalState, submitResult]
    rw [List.filterMap_map]
    exact filterMap_find_self
      (fun r hr => find_by_name repos h (List.mem_of_mem_filter hr))

/-- C3 witness: the claim's instance, `lastSelectedNames = \x7bA, C\x7d` with
repositories `[A, B, C]`: the pre-checked set is exactly `\x7bA, C\x7d` and
submitting with no toggles returns `[A, C]` in that order. -/
theorem c3_no_toggle_round_trip_witness :
    (runModal
        [⟨str "A", str "/a", false⟩, ⟨str "B", str "/b", false⟩, ⟨str "C", str "/c", false⟩]
        [str "A", str "C"] []).selected = [str "A", str "C"] ∧
    submitResult (runModal
        [⟨str "A", str "/a", false⟩, ⟨str "B", str "/b", false⟩, ⟨str "C", str "/c", false⟩]
        [str "A", str "C"] []) =
      [⟨str "A", str "/a", false⟩, ⟨str "C", str "/c", false⟩] := by
  have h := c3_no_toggle_round_trip
    [⟨str "A", str "/a", false⟩, ⟨str "B", str "/b", false⟩, ⟨str "C", str "/c", false⟩]
    [str "A", str "C"] (by decide)
  exact ⟨h.1.trans (by decide), h.2.trans (by decide)⟩

/-- Primary-selection toggles never touch the repository objects. -/
theorem repos_unchanged_without_branch_toggles :
    ∀ (events : List ModalEvent), (∀ e ∈ events, isAllBranchesToggle e = false) →
      ∀ st : ModalState, (events.foldl modalStep st).repos = st.repos := by
  intro events
  induction events with
  | nil =>
    intro _ st
    rfl
  | cons e rest ih =>
    intro h st
    rw [List.foldl_cons, ih (fun x hx => h x (List.mem_cons_of_mem e hx))]
    have he := h e (List.mem_cons_self e rest)
    cases e with
    | toggleSelect name checked => cases checked <;> rfl
    | toggleAllBranches name checked => simp [isAllBranchesToggle] at he

/-- C7 counterexample: toggling the "all branches" checkbox of repository
`A` and then closing the dialog without submitting leaves the in-memory
settings mutated (`A.allBranches` is now `true`), contradicting the claim
that cancelling the dialog leaves the store's in-memory settings
unchanged. -/
theorem c7_counterexample :
    (promptForRepos ⟨[⟨str "A", str "/a", false⟩], []⟩
        [ModalEvent.toggleAllBranches (str "A") true] RepoModalAction.closeModal).settings =
      ⟨[⟨str "A", str "/a", true⟩], []⟩ ∧
    (promptForRepos ⟨[⟨str "A", str "/a", false⟩], []⟩
        [ModalEvent.toggleAllBranches (str "A") true] RepoModalAction.closeModal).settings ≠
      ⟨[⟨str "A", str "/a", false⟩], []⟩ := by
  decide

/-- C7 (amended): while the dialog is open nothing is persisted to disk
and the last-selected names are untouched; primary-selection toggles alone
leave the in-memory settings unchanged on cancellation; but an
"all branches" toggle mutates the underlying repository object
immediately, so the mutated repository list is visible in the in-memory
settings even when the dialog is cancelled (only submission persists it to
disk). -/
theorem c7_toggle_locality (settings : Settings) (events : List ModalEvent) :
    (promptForRepos settings events RepoModalAction.closeModal).savedToDisk = none ∧
    (promptForRepos settings events RepoModalAction.closeModal).settings.lastSelectedRepos =
      settings.lastSelectedRepos ∧
    ((∀ e ∈ events, isAllBranchesToggle e = false) →
      (promptForRepos settings events RepoModalAction.closeModal).settings = settings) ∧
    (∀ action : RepoModalAction,
      (promptForRepos settings events action).settings.repos =
        (runModal settings.repos settings.lastSelectedRepos events).repos) := by
  refine ⟨rfl, rfl, ?_, ?_⟩
  · intro h
    simp only [promptForRepos, runModal]
    rw [repos_unchanged_without_branch_toggles events h]
    rfl
  · intro action
    cases action <;> rfl

/-- C7 witness: `c7_toggle_locality` instantiated at one repository with a
single primary-selection toggle: closing then leaves the settings exactly
as they were, and nothing was saved. -/
theorem c7_toggle_locality_witness :
    (promptForRepos ⟨[⟨str "A", str "/a", false⟩], []⟩
        [ModalEvent.toggleSelect (str "A") true] RepoModalAction.closeModal).savedToDisk =
      none ∧
    (promptForRepos ⟨[⟨str "A", str "/a", false⟩], []⟩
        [ModalEvent.toggleSelect (str "A") true] RepoModalAction.closeModal).settings =
      ⟨[⟨str "A", str "/a", false⟩], []⟩ :=
  ⟨(c7_toggle_locality ⟨[⟨str "A", str "/a", false⟩], []⟩
      [ModalEvent.toggleSelect (str "A") true]).1,
   (c7_toggle_locality ⟨[⟨str "A", str "/a", false⟩], []⟩
      [ModalEvent.toggleSelect (str "A") true]).2.2.1 (by decide)⟩

/-- C6 counterexample: closing the date prompt without submitting leaves
the awaited promise pending forever, so the workflow suspends; no notice
is emitted, contradicting the claim that a closed dialog yields an absent
date followed by the "No date provided" notice. -/
theorem c6_counterexample :
    (insertGitLog (fun _ => ExecResult.failure) ⟨[], []⟩ (some (str "notes"))
        DatePromptAction.closeModal [] RepoModalAction.closeModal).1 =
      InsertOutcome.suspended ∧
    InsertOutcome.suspended ≠
      InsertOutcome.noticeShown (str "No date provided. Git log not inserted.") := by
  decide

/-- C6 (amended): closing either modal without submitting suspends the
insertion workflow (its promise never resolves): no text is inserted, no
exception surfaces, but no notice is emitted either.  The user-facing
notices arise from empty submissions: submitting the date prompt with an
empty value yields "No date provided. Git log not inserted.", and
submitting the repository dialog with nothing checked yields
"No repositories selected. Git log not inserted."; in both cases no text
is inserted. -/
theorem c6_cancel_and_empty_submission (exec : Str → ExecResult)
    (settings : Settings) (basename : Option Str) (events : List ModalEvent) :
    (isDailyNote (some (basename.getD (str ""))) = false →
      ∀ repoAction,
        insertGitLog exec settings basename DatePromptAction.closeModal events
          repoAction = (InsertOutcome.suspended, settings)) ∧
    (isDailyNote (some (basename.getD (str ""))) = false →
      ∀ repoAction,
        insertGitLog exec settings basename (DatePromptAction.submitDate (str ""))
          events repoAction =
          (InsertOutcome.noticeShown (str "No date provided. Git log not inserted."),
            settings)) ∧
    (isDailyNote (some (basename.getD (str ""))) = false →
      ∀ v : Str, v ≠ [] →
        (insertGitLog exec settings basename (DatePromptAction.submitDate v) events
          RepoModalAction.closeModal).1 = InsertOutcome.suspended) ∧
    (isDailyNote (some (basename.getD (str ""))) = false →
      ∀ v : Str, v ≠ [] →
        submitResult (runModal settings.repos settings.lastSelectedRepos events) = [] →
        (insertGitLog exec settings basename (DatePromptAction.submitDate v) events
          RepoModalAction.submitModal).1 =
          InsertOutcome.noticeShown
            (str "No repositories selected. Git log not inserted.")) := by
  have hnil : str "" = ([] : Str) := rfl
  refine ⟨?_, ?_, ?_, ?_⟩
  · intro h repoAction
    simp [insertGitLog, h]
  · intro h repoAction
    simp only [insertGitLog]
    rw [if_neg (by simp [h])]
    simp [insertWithDate, hnil]
  · intro h v hv
    simp [insertGitLog, insertWithDate, h, hv]
  · intro h v hv hempty
    simp [insertGitLog, insertWithDate, promptForRepos, h, hv, hempty]

/-- C6 witness: `c6_cancel_and_empty_submission` instantiated at the
non-daily file name `notes`: the closed date prompt suspends, the empty
date submission shows the date notice, the closed repository dialog
suspends, and the empty repository submission shows the selection
notice. -/
theorem c6_cancel_and_empty_submission_witness :
    insertGitLog (fun _ => ExecResult.failure) ⟨[], []⟩ (some (str "notes"))
        DatePromptAction.closeModal [] RepoModalAction.closeModal =
      (InsertOutcome.suspended, (⟨[], []⟩ : Settings)) ∧
    insertGitLog (fun _ => ExecResult.failure) ⟨[], []⟩ (some (str "notes"))
        (DatePromptAction.submitDate (str "")) [] RepoModalAction.closeModal =
      (InsertOutcome.noticeShown (str "No date provided. Git log not inserted."),
        (⟨[], []⟩ : Settings)) ∧
    (insertGitLog (fun _ => ExecResult.failure) ⟨[], []⟩ (some (str "notes"))
        (DatePromptAction.submitDate (str "2024-03-15")) []
        RepoModalAction.closeModal).1 = InsertOutcome.suspended ∧
    (insertGitLog (fun _ => ExecResult.failure) ⟨[], []⟩ (some (str "notes"))
        (DatePromptAction.submitDate (str "2024-03-15")) []
        RepoModalAction.submitModal).1 =
      InsertOutcome.noticeShown
        (str "No repositories selected. Git log not inserted.") :=
  ⟨(c6_cancel_and_empty_submission (fun _ => ExecResult.failure) ⟨[], []⟩
      (some (str "notes")) []).1 (by decide) RepoModalAction.closeModal,
   (c6_cancel_and_empty_submission (fun _ => ExecResult.failure) ⟨[], []⟩
      (some (str "notes")) []).2.1 (by decide) RepoModalAction.closeModal,
   (c6_cancel_and_empty_submission (fun _ => ExecResult.failure) ⟨[], []⟩
      (some (str "notes")) []).2.2.1 (by decide) (str "2024-03-15") (by decide),
   (c6_cancel_and_empty_submission (fun _ => ExecResult.failure) ⟨[], []⟩
      (some (str "notes")) []).2.2.2 (by decide) (str "2024-03-15") (by decide)
      (by decide)⟩

/-- C8: formatting an empty selection produces the empty string, and when
the repository dialog is submitted with nothing checked the command shows
the notice "No repositories selected. Git log not inserted." instead of
inserting text. -/
theorem c8_empty_selection (exec : Str → ExecResult) (date : Str) :
    formatAll exec date [] = str "" ∧
    (∀ (settings : Settings) (events : List ModalEvent) (v : Str), v ≠ [] →
      submitResult (runModal settings.repos settings.lastSelectedRepos events) = [] →
      (insertGitLog exec settings none (DatePromptAction.submitDate v) events
        RepoModalAction.submitModal).1 =
        InsertOutcome.noticeShown
          (str "No repositories selected. Git log not inserted.")) := by
  have hdaily : isDailyNote (some (str "")) = false := by decide
  refine ⟨rfl, ?_⟩
  intro settings events v hv hempty
  simp [insertGitLog, insertWithDate, promptForRepos, hdaily, hv, hempty]

/-- C8 witness: `c8_empty_selection` instantiated at an empty repository
list and a submitted date. -/
theorem c8_empty_selection_witness :
    formatAll (fun _ => ExecResult.failure) (str "2024-03-15") [] = str "" ∧
    (insertGitLog (fun _ => ExecResult.failure) ⟨[], []⟩ none
        (DatePromptAction.submitDate (str "2024-03-15")) []
        RepoModalAction.submitModal).1 =
      InsertOutcome.noticeShown
        (str "No repositories selected. Git log not inserted.") :=
  ⟨(c8_empty_selection (fun _ => ExecResult.failure) (str "2024-03-15")).1,
   (c8_empty_selection (fun _ => ExecResult.failure) (str "2024-03-15")).2
      ⟨[], []⟩ [] (str "2024-03-15") (by decide) (by decide)⟩

/-- C10: on the `null` file name, `isDailyNote` returns `true` (the
optional-chained match yields `undefined`, and `undefined !== null` holds)
while `extractDateFromFileName` returns `null`, so the two functions
disagree on `null`. -/
theorem c10_null_file_name_disagreement :
    isDailyNote none = true ∧ extractDateFromFileName none = none := by
  decide

end GitLogNote
